import Mathlib

/-
Verification of the TFRecord dataset adapter
(`tf_translate/vision/datasets/tfrecord_dataset.py`, class `RecordDataset`).

The Python class is shallowly embedded below.  File-system contents that the
constructor inspects are passed in explicitly as a `FileSystem` value; the
content of a per-sample annotation file `Annotations/<id>.xml` is modelled by
the list of its `object` elements (`XmlObject`).  Machine floats produced by
`float(...)` are modelled as rationals (all annotation texts considered here
denote exact numeric values); numpy's `uint8` conversion of the difficulty
column is modelled by reduction modulo 256.  Fallible Python operations are
embedded in `Except PyError`.
-/

/-- Python exception kinds that the embedded code can raise.  `configurationError`
is the spec's "Configuration error" taxon; it is included so that statements
about it can be made, the code itself never raises it. -/
inductive PyError where
  | attributeError
  | fileNotFoundError
  | valueError
  | configurationError
deriving DecidableEq, Repr

deriving instance DecidableEq for Except

attribute [local semireducible] Rat.add Rat.sub Rat.mul

/-- Python `s.lower()` (ASCII case folding, which covers every class name the
code handles). -/
def pyLower (s : String) : String :=
  ⟨s.data.map Char.toLower⟩

/-- Python `s.strip()`: drop whitespace from both ends. -/
def pyStrip (s : String) : String :=
  ⟨((s.data.dropWhile Char.isWhitespace).reverse.dropWhile Char.isWhitespace).reverse⟩

/-- Python `s.rstrip()`: drop trailing whitespace. -/
def pyRstrip (s : String) : String :=
  ⟨(s.data.reverse.dropWhile Char.isWhitespace).reverse⟩

/-- Python `s.replace(" ", "")`: for the one-character pattern this removes
every space character of the string, interior ones included. -/
def pyRemoveSpaces (s : String) : String :=
  ⟨s.data.filter (fun c => !(c == ' '))⟩

/-- Value of a nonempty all-digit character list, `none` otherwise. -/
def digitsVal (l : List Char) : Option Nat :=
  if l.isEmpty then none
  else l.foldl
    (fun acc c =>
      match acc with
      | none => none
      | some n => if c.isDigit then some (n * 10 + (c.toNat - 48)) else none)
    (some 0)

/-- Python `int(s)` on a string: surrounding whitespace is ignored, an optional
sign is allowed, and a non-numeric remainder raises `ValueError`. -/
def pyInt (s : String) : Except PyError Int :=
  let t := (pyStrip s).data
  match t with
  | '-' :: ds =>
    match digitsVal ds with
    | some n => .ok (-(n : Int))
    | none => .error .valueError
  | '+' :: ds =>
    match digitsVal ds with
    | some n => .ok (n : Int)
    | none => .error .valueError
  | ds =>
    match digitsVal ds with
    | some n => .ok (n : Int)
    | none => .error .valueError

/-- Python `s.split(',')` — note `"".split(',')` is `[""]`. -/
def splitCommaAux : List Char → List Char → List String
  | [], acc => [⟨acc.reverse⟩]
  | c :: rest, acc =>
    if c = ',' then ⟨acc.reverse⟩ :: splitCommaAux rest []
    else splitCommaAux rest (c :: acc)

/-- Python `s.split(',')`. -/
def pySplitComma (s : String) : List String :=
  splitCommaAux s.data []

/-- The part of the file system under the dataset root that `__init__` can
observe: existence of the root and the two record files, and the contents of
the optional side files (`none` = the file does not exist; for the label file
the content is its list of lines). -/
structure FileSystem where
  rootExists : Bool
  trainRecord : Bool
  valRecord : Bool
  numTrain : Option String
  numVal : Option String
  labelMap : Option (List String)
deriving DecidableEq, Repr

/-- Lines 27-36 of `__init__`: the record-count side-file step.  For the
validation split (`is_test` true) the code tests `num_val.txt` and reads
`num_val.txt`; for the training split it tests `num_val.txt` but opens
`num_train.txt` (exactly as written in the source).  Returns the stored
`num_records` value, `none` when the guard was false. -/
def readNumRecords (is_test : Bool) (fs : FileSystem) : Except PyError (Option Int) :=
  if is_test then
    match fs.numVal with
    | some contents =>
      match pyInt contents with
      | .ok n => .ok (some n)
      | .error e => .error e
    | none => .ok none
  else
    match fs.numVal with
    | some _ =>
      match fs.numTrain with
      | some contents =>
        match pyInt contents with
        | .ok n => .ok (some n)
        | .error e => .error e
      | none => .error .fileNotFoundError
    | none => .ok none

/-- The hardcoded default VOC class list used when no `label_map.txt` exists. -/
def defaultClassNames : List String :=
  ["BACKGROUND",
   "aeroplane", "bicycle", "bird", "boat",
   "bottle", "bus", "car", "cat", "chair",
   "cow", "diningtable", "dog", "horse",
   "motorbike", "person", "pottedplant",
   "sheep", "sofa", "train", "tvmonitor"]

/-- Lines 46-49: `class_string` is the concatenation of every rstripped line of
`label_map.txt`. -/
def classStringOf (lines : List String) : String :=
  lines.foldl (fun acc l => acc ++ pyRstrip l) ""

/-- Line 53: `classes = class_string.split(',')`. -/
def tokensOf (lines : List String) : List String :=
  pySplitComma (classStringOf lines)

/-- Lines 53-57: split on commas, insert `BACKGROUND` in front, then
`elem.replace(" ", "")` on every element (this removes every space character,
interior ones included). -/
def buildClassNames (lines : List String) : List String :=
  ("BACKGROUND" :: tokensOf lines).map (fun e => pyRemoveSpaces e)

/-- Lines 45-67: the `class_names` tuple, from the label file when it exists,
otherwise the default list. -/
def classNamesOf (fs : FileSystem) : List String :=
  match fs.labelMap with
  | some lines => buildClassNames lines
  | none => defaultClassNames

/-- Helper for `classDictLookup`: position of the LAST occurrence of `k` in the
name list, offset by `off`.  Later duplicates win, matching the Python dict
comprehension `{class_name: i for i, class_name in enumerate(...)}` where a
repeated key is overwritten by its later index. -/
def classDictFind (k : String) : List String → Nat → Option Nat
  | [], _ => none
  | n :: rest, i =>
    match classDictFind k rest (i + 1) with
    | some j => some j
    | none => if n = k then some i else none

/-- Line 69: `self.class_dict[k]` — `some i` when `k` is a key of the dict
(with `i` its id), `none` when `k not in self.class_dict`. -/
def classDictLookup (names : List String) (k : String) : Option Nat :=
  classDictFind k names 0

/-- One `object` element of an `Annotations/<id>.xml` file, with a `name` child
and a `bndbox` child present (the only shape the parser's claims exercise).
The four coordinate fields hold the numeric value denoted by the corresponding
text.  `difficult` is `none` when the `difficult` element is absent from the
object, `some none` when it is present with no text, and `some (some s)` when
its text is `s`. -/
structure XmlObject where
  name : String
  xmin : ℚ
  ymin : ℚ
  xmax : ℚ
  ymax : ℚ
  difficult : Option (Option String)
deriving DecidableEq, Repr

/-- Lines 160-161: `is_difficult_str = object.find('difficult').text` followed
by `int(is_difficult_str) if is_difficult_str else 0`.  An absent `difficult`
element makes `find` return `None`, so reading `.text` raises
`AttributeError`; a present element whose text is `None` or the empty string is
falsy and yields `0`; any other text goes through `int(...)`. -/
def parseDifficult : Option (Option String) → Except PyError Int
  | none => .error .attributeError
  | some none => .ok 0
  | some (some s) => if s = "" then .ok 0 else pyInt s

/-- Line 149's test `class_name in self.class_dict` applied to the case-folded,
trimmed `name` text of an object (line 147). -/
def recog (names : List String) (o : XmlObject) : Bool :=
  (classDictLookup names (pyStrip (pyLower o.name))).isSome

/-- Lines 143-161: the object loop of `_get_annotation`.  Objects whose
processed class name is not a dict key are skipped entirely; for a kept object
the four coordinates minus 1 are appended in (x1, y1, x2, y2) order, the
resolved label id is appended, and the difficulty text is parsed (which can
raise). -/
def parseObjects (names : List String) : List XmlObject →
    Except PyError (List (List ℚ) × List Nat × List Int)
  | [] => .ok ([], [], [])
  | o :: rest =>
    match classDictLookup names (pyStrip (pyLower o.name)) with
    | none => parseObjects names rest
    | some lab =>
      match parseDifficult o.difficult with
      | .error e => .error e
      | .ok dv =>
        match parseObjects names rest with
        | .error e => .error e
        | .ok (bs, ls, ds) =>
          .ok ([o.xmin - 1, o.ymin - 1, o.xmax - 1, o.ymax - 1] :: bs, lab :: ls, dv :: ds)

/-- The state of a `RecordDataset` instance, over an abstract image type `Img`.
`annotationXml` gives the parsed content of `Annotations/<id>.xml` and
`imageOf` the decoded RGB image for an id (both are external file contents,
fixed for the lifetime of the instance).  `ids` is the attribute the methods
read; no code path of `__init__` ever assigns it. -/
structure RecordState (Img : Type) where
  root : String
  ids : List String
  batch_size : Nat
  keep_difficult : Bool
  classNames : List String
  transform : Option (Img → List (List ℚ) → List Nat → Img × List (List ℚ) × List Nat)
  targetTransform : Option (List (List ℚ) → List Nat → List (List ℚ) × List Nat)
  numRecords : Option Int
  annotationXml : String → List XmlObject
  imageOf : String → Img

/-- Lines 15-40 of `__init__` up to its first failure point.  After the record
count step, line 38 constructs the external `TFRecordDataset` handle (which
does not touch the file system at construction time) and line 39 stores
`keep_difficult`; line 40 then evaluates `len(self.ids)` although `ids` was
never assigned, raising `AttributeError` before `batch_size` is used and
before the label-file code at lines 42-69 can run.  Hence no argument
combination produces an `.ok` state. -/
def init {Img : Type} (is_test keep_difficult : Bool) (batch_size : Nat)
    (transform : Option (Img → List (List ℚ) → List Nat → Img × List (List ℚ) × List Nat))
    (target_transform : Option (List (List ℚ) → List Nat → List (List ℚ) × List Nat))
    (fs : FileSystem) : Except PyError (RecordState Img) :=
  match readNumRecords is_test fs with
  | .error e => .error e
  | .ok _ => .error .attributeError

/-- Lines 140-165: `_get_annotation` — parse the sample's objects, then convert
the difficulty column to numpy `uint8` (reduction modulo 256). -/
def getAnnotation {Img : Type} (st : RecordState Img) (image_id : String) :
    Except PyError (List (List ℚ) × List Nat × List Nat) :=
  match parseObjects st.classNames (st.annotationXml image_id) with
  | .error e => .error e
  | .ok (b, l, d) => .ok (b, l, d.map (fun z => (z % 256).toNat))

/-- Numpy boolean-mask indexing `xs[mask == 0]` for an aligned mask: keep the
rows whose mask entry is 0, in order.  (Numpy requires the lengths to agree;
every use below has them equal.) -/
def maskKeep {α : Type} (xs : List α) (mask : List Nat) : List α :=
  ((xs.zip mask).filter (fun p => p.2 == 0)).map (fun p => p.1)

/-- Lines 96-108 of `__getitem__`: the per-sample pipeline of one loop
iteration — fetch the annotation (which can raise), apply the
`is_difficult == 0` mask to boxes and labels when `keep_difficult` is false,
read the image, then apply the optional transform (jointly to image, boxes,
labels) and the optional target transform (to boxes, labels). -/
def processSample {Img : Type} (st : RecordState Img) (i : Nat) :
    Except PyError (Img × List (List ℚ) × List Nat) :=
  match getAnnotation st (st.ids.getD i "") with
  | .error e => .error e
  | .ok (boxes0, labels0, diffs) =>
    let boxes1 := if st.keep_difficult then boxes0 else maskKeep boxes0 diffs
    let labels1 := if st.keep_difficult then labels0 else maskKeep labels0 diffs
    let img0 := st.imageOf (st.ids.getD i "")
    let step1 :=
      match st.transform with
      | some f => f img0 boxes1 labels1
      | none => (img0, boxes1, labels1)
    let step2 :=
      match st.targetTransform with
      | some g => g step1.2.1 step1.2.2
      | none => (step1.2.1, step1.2.2)
    .ok (step1.1, step2.1, step2.2)

/-- Lines 95-116: the accumulation loop of `__getitem__` over the (already
shuffled) index list.  Each iteration runs the per-sample pipeline and appends
its results to the three accumulator lists.  Returns the three lists at the
`return` point (reached as soon as `len(target1) == self.batch_size` after an
append), `none` when the loop falls off the end of the list. -/
def getitemLoop {Img : Type} (st : RecordState Img) :
    List Nat → List Img → List (List (List ℚ)) → List (List Nat) →
    Except PyError (Option (List Img × List (List (List ℚ)) × List (List Nat)))
  | [], _, _, _ => .ok none
  | i :: rest, inputs, t1, t2 =>
    match processSample st i with
    | .error e => .error e
    | .ok (im, bx, lb) =>
      let inputs2 := inputs ++ [im]
      let t1n := t1 ++ [bx]
      let t2n := t2 ++ [lb]
      if t1n.length = st.batch_size then .ok (some (inputs2, t1n, t2n))
      else getitemLoop st rest inputs2 t1n t2n

/-- Lines 90-92: `end = (idx + 1) * self.batch_size`, clamped to
`len(self.ids) - 1` when it reaches `len(self.ids)`. -/
def drawEnd {Img : Type} (st : RecordState Img) (idx : Nat) : Nat :=
  if st.ids.length ≤ (idx + 1) * st.batch_size then st.ids.length - 1
  else (idx + 1) * st.batch_size

/-- Line 93: `np.arange(idx * self.batch_size, end)` — the index range a batch
draws from, before shuffling. -/
def drawnIdxs {Img : Type} (st : RecordState Img) (idx : Nat) : List Nat :=
  List.range' (idx * st.batch_size) (drawEnd st idx - idx * st.batch_size)

/-- Lines 113-115: stack the labels, `np.expand_dims(..., 2)`, and
`np.concatenate([boxes, labels], axis=2)` — each per-detection row of the
combined target is the box row with the label appended as one extra trailing
slot. -/
def combineTargets (t1 : List (List (List ℚ))) (t2 : List (List ℚ)) :
    List (List (List ℚ)) :=
  (t1.zip t2).map (fun p => (p.1.zip p.2).map (fun q => q.1 ++ [q.2]))

/-- Lines 88-116: `__getitem__`.  The caller-invisible `np.random.shuffle` is
modelled by an explicit `shuffle` function applied to the drawn range (theorems
constrain it to be a permutation where that matters).  `ok none` models the
implicit `return None` when the loop is exhausted before a full batch
accumulates. -/
def getitem {Img : Type} (st : RecordState Img) (idx : Nat)
    (shuffle : List Nat → List Nat) :
    Except PyError (Option (List Img × List (List (List ℚ)))) :=
  match getitemLoop st (shuffle (drawnIdxs st idx)) [] [] [] with
  | .error e => .error e
  | .ok none => .ok none
  | .ok (some (inputs, t1, t2)) =>
    .ok (some (inputs, combineTargets t1 (t2.map (fun r => r.map (fun n : Nat => (n : ℚ))))))

/-- Decidable record of `_get_annotation` succeeding on the sample at index
`i`. -/
def annOk {Img : Type} (st : RecordState Img) (i : Nat) : Bool :=
  match getAnnotation st (st.ids.getD i "") with
  | .ok _ => true
  | .error _ => false

/-- The (box row, label, difficulty) triples of a sample that survive the
`is_difficult == 0` mask (empty on a parse error, a case excluded wherever this
is used). -/
def keptTriples {Img : Type} (st : RecordState Img) (image_id : String) :
    List (List ℚ × Nat × Nat) :=
  match getAnnotation st image_id with
  | .ok (b, l, d) => (b.zip (l.zip d)).filter (fun t => t.2.2 == 0)
  | .error _ => []

/-- The combined-target rows a sample contributes to a batch when
`keep_difficult` is false and no transforms are configured: each surviving
triple rendered as box row plus appended label. -/
def cleanDets {Img : Type} (st : RecordState Img) (image_id : String) :
    List (List ℚ) :=
  (keptTriples st image_id).map (fun t => t.1 ++ [(t.2.1 : ℚ)])

/-- Per-sample boxes after the difficulty mask (no-transform pipeline). -/
def rowBoxes {Img : Type} (st : RecordState Img) (i : Nat) : List (List ℚ) :=
  match getAnnotation st (st.ids.getD i "") with
  | .ok (b, _, d) => maskKeep b d
  | .error _ => []

/-- Per-sample labels after the difficulty mask (no-transform pipeline). -/
def rowLabels {Img : Type} (st : RecordState Img) (i : Nat) : List Nat :=
  match getAnnotation st (st.ids.getD i "") with
  | .ok (_, l, d) => maskKeep l d
  | .error _ => []

lemma pyInt_error (s : String) (e : PyError) (h : pyInt s = .error e) :
    e = PyError.valueError := by
  unfold pyInt at h
  dsimp only at h
  split at h <;> split at h <;> (cases h; try rfl)

lemma readNumRecords_error_kinds (it : Bool) (fs : FileSystem) (e : PyError)
    (h : readNumRecords it fs = .error e) :
    e = PyError.valueError ∨ e = PyError.fileNotFoundError := by
  obtain ⟨r1, r2, r3, nt, nv, lm⟩ := fs
  cases it
  · cases nv with
    | none => cases h
    | some contents =>
      cases nt with
      | none =>
        have h2 : PyError.fileNotFoundError = e := by
          simpa [readNumRecords] using h
        exact Or.inr h2.symm
      | some c =>
        cases hp : pyInt c with
        | error e2 =>
          have h2 : e2 = e := by simpa [readNumRecords, hp] using h
          exact Or.inl (h2 ▸ pyInt_error _ _ hp)
        | ok n => exact absurd h (by simp [readNumRecords, hp])
  · cases nv with
    | none => cases h
    | some contents =>
      cases hp : pyInt contents with
      | error e2 =>
        have h2 : e2 = e := by simpa [readNumRecords, hp] using h
        exact Or.inl (h2 ▸ pyInt_error _ _ hp)
      | ok n => exact absurd h (by simp [readNumRecords, hp])

lemma init_never_ok {Img : Type} (it kd : Bool) (B : Nat)
    (tf : Option (Img → List (List ℚ) → List Nat → Img × List (List ℚ) × List Nat))
    (ttf : Option (List (List ℚ) → List Nat → List (List ℚ) × List Nat))
    (fs : FileSystem) (s : RecordState Img) : init it kd B tf ttf fs ≠ .ok s := by
  unfold init
  cases readNumRecords it fs <;> simp

/-- C1 counterexample: the claim says construction raises an attribute error for
EVERY input.  On the training split with `num_val.txt` present and
`num_train.txt` absent, lines 34-35 open the missing `num_train.txt` and a
`FileNotFoundError` is raised instead (before line 40 is reached). -/
theorem claim_C1_counterexample :
    (init false false 32 none none
      ⟨true, true, true, none, some "5", none⟩ :
        Except PyError (RecordState Unit)) = .error .fileNotFoundError ∧
    PyError.fileNotFoundError ≠ PyError.attributeError :=
  ⟨rfl, by decide⟩

/-- C1 (amended): construction never succeeds for any input (any split flag,
keep-difficult flag, batch size, transforms and file-system state), and
whenever the record-count side-file step of lines 27-36 completes without an
earlier error — in particular whenever no side file is read — line 40's read of
the never-assigned `ids` attribute raises `AttributeError`; hence `__len__`,
`__getitem__`, `get_image` and `get_annotation` are unreachable on a
successfully constructed instance. -/
theorem claim_C1_amended {Img : Type} (it kd : Bool) (B : Nat)
    (tf : Option (Img → List (List ℚ) → List Nat → Img × List (List ℚ) × List Nat))
    (ttf : Option (List (List ℚ) → List Nat → List (List ℚ) × List Nat))
    (fs : FileSystem) :
    (∀ s : RecordState Img, init it kd B tf ttf fs ≠ .ok s) ∧
    (∀ n : Option Int, readNumRecords it fs = .ok n →
      init it kd B tf ttf fs = .error .attributeError) := by
  refine ⟨fun s => init_never_ok it kd B tf ttf fs s, fun n h => ?_⟩
  unfold init
  rw [h]

/-- Witness for C1: a concrete input whose side-file step succeeds, on which
construction indeed fails with `AttributeError`. -/
theorem claim_C1_witness :
    (init false false 32 none none
      ⟨true, true, true, none, none, none⟩ :
        Except PyError (RecordState Unit)) = .error .attributeError :=
  (claim_C1_amended false false 32 none none
    ⟨true, true, true, none, none, none⟩).2 none rfl

/-- C2 counterexample: with the root directory and both record sources present
construction still fails (with `AttributeError`), and with all of them missing
no Configuration error is raised — the same `AttributeError` happens. -/
theorem claim_C2_counterexample :
    (init false false 32 none none
      ⟨true, true, true, none, none, none⟩ :
        Except PyError (RecordState Unit)) = .error .attributeError ∧
    (init false false 32 none none
      ⟨false, false, false, none, none, none⟩ :
        Except PyError (RecordState Unit)) = .error .attributeError ∧
    PyError.attributeError ≠ PyError.configurationError :=
  ⟨rfl, rfl, by decide⟩

/-- C2 (amended): construction never checks the root directory or the selected
split's record source — its outcome is unchanged under any change to their
presence — it never raises a Configuration error, and it never succeeds (even
with root and both record sources present): every run ends in the unset-`ids`
`AttributeError` or an earlier side-file error. -/
theorem claim_C2_amended {Img : Type} (it kd : Bool) (B : Nat)
    (tf : Option (Img → List (List ℚ) → List Nat → Img × List (List ℚ) × List Nat))
    (ttf : Option (List (List ℚ) → List Nat → List (List ℚ) × List Nat))
    (fs : FileSystem) (b1 b2 b3 : Bool) :
    init it kd B tf ttf
      { fs with rootExists := b1, trainRecord := b2, valRecord := b3 } =
      init it kd B tf ttf fs ∧
    (∀ e, init it kd B tf ttf fs = .error e →
      e ≠ PyError.configurationError) ∧
    (∀ s : RecordState Img, init it kd B tf ttf fs ≠ .ok s) := by
  refine ⟨rfl, fun e h => ?_, fun s => init_never_ok it kd B tf ttf fs s⟩
  unfold init at h
  cases hr : readNumRecords it fs <;> rw [hr] at h
  case error e2 =>
    cases h
    rcases readNumRecords_error_kinds it fs e hr with h2 | h2 <;> simp [h2]
  case ok n =>
    cases h
    simp

/-- Witness for C2: the record-presence independence and the no-configuration
-error fact at a concrete input. -/
theorem claim_C2_witness :
    (init true true 8 none none
      { (⟨false, false, false, none, none, none⟩ : FileSystem) with
        rootExists := true, trainRecord := true, valRecord := true } :
        Except PyError (RecordState Unit)) =
      init true true 8 none none
        ⟨false, false, false, none, none, none⟩ ∧
    PyError.attributeError ≠ PyError.configurationError :=
  ⟨(@claim_C2_amended Unit true true 8 none none
      ⟨false, false, false, none, none, none⟩ true true true).1,
   (@claim_C2_amended Unit true true 8 none none
      ⟨false, false, false, none, none, none⟩ true true true).2.1
     PyError.attributeError rfl⟩

/-- C10: evaluation of the record-count step at the inputs where the code
diverges from the claim.  On the training split the guard of line 34 tests
`num_val.txt`, not `num_train.txt`: with `num_train.txt` present (content "5")
and `num_val.txt` absent no count is read at all; with `num_val.txt` present
and `num_train.txt` absent the code tries to open the missing `num_train.txt`
and fails.  The validation split behaves as claimed. -/
theorem claim_C10_eval :
    readNumRecords false ⟨true, true, true, some "5", none, none⟩ = .ok none ∧
    readNumRecords false ⟨true, true, true, none, some "7", none⟩ =
      .error .fileNotFoundError ∧
    readNumRecords true ⟨true, true, true, none, some "7", none⟩ = .ok (some 7) ∧
    readNumRecords true ⟨true, true, true, some "5", none, none⟩ = .ok none :=
  ⟨rfl, rfl, rfl, rfl⟩

/-- C8 counterexample: an object of a recognized class whose `difficult`
element is ABSENT makes `_get_annotation` raise `AttributeError` (line 160
calls `.text` on the `None` returned by `find`), while a PRESENT `difficult`
element with empty text does default to 0 as claimed. -/
theorem claim_C8_counterexample :
    parseObjects ["BACKGROUND", "cat"] [⟨"cat", 1, 2, 3, 4, none⟩] =
      .error .attributeError ∧
    parseObjects ["BACKGROUND", "cat"] [⟨"cat", 1, 2, 3, 4, some none⟩] =
      .ok ([[0, 1, 2, 3]], [1], [0]) :=
  ⟨rfl, by decide⟩

/-- C8 (amended): for a kept detection the `difficult` text is parsed with
`int(...)`, defaulting to 0 when the element is present but its text is empty
or missing; when the `difficult` element is absent from the object, parsing
raises an `AttributeError` instead of defaulting. -/
theorem claim_C8_amended :
    parseDifficult (some none) = .ok 0 ∧
    parseDifficult (some (some "")) = .ok 0 ∧
    (∀ s : String, s ≠ "" → parseDifficult (some (some s)) = pyInt s) ∧
    parseDifficult none = .error .attributeError ∧
    (∀ (names : List String) (objs : List XmlObject) (o : XmlObject) (k : Nat),
      classDictLookup names (pyStrip (pyLower o.name)) = some k →
      o.difficult = none →
      parseObjects names (o :: objs) = .error .attributeError) := by
  refine ⟨rfl, rfl, fun s hs => ?_, rfl, fun names objs o k hk hd => ?_⟩
  · simp only [parseDifficult]
    rw [if_neg hs]
  · simp only [parseObjects, hk, hd, parseDifficult]

/-- Witness for C8: the non-empty-text and absent-element clauses of the
amended claim at concrete inputs. -/
theorem claim_C8_witness :
    parseDifficult (some (some "1")) = pyInt "1" ∧
    parseObjects ["BACKGROUND", "cat"] [⟨"cat", 5, 6, 7, 8, none⟩] =
      .error .attributeError :=
  ⟨claim_C8_amended.2.2.1 "1" (by decide),
   claim_C8_amended.2.2.2.2 ["BACKGROUND", "cat"] []
     ⟨"cat", 5, 6, 7, 8, none⟩ 1 (by decide) rfl⟩

/-- C9 counterexample: the token `big dog` of the label file line
`big dog,cat` has its INTERIOR space removed by `elem.replace(" ", "")`
(line 56), so the dictionary's key is `bigdog`; the claim's key — the token
with surrounding whitespace stripped and interior characters unchanged, i.e.
`big dog` itself — is not a key of the dictionary at all. -/
theorem claim_C9_counterexample :
    buildClassNames ["big dog,cat"] = ["BACKGROUND", "bigdog", "cat"] ∧
    classDictLookup (buildClassNames ["big dog,cat"]) "big dog" = none ∧
    pyStrip "big dog" = "big dog" :=
  ⟨by decide, by decide, by decide⟩

lemma classDictFind_not_mem (k : String) :
    ∀ (names : List String) (off : Nat), k ∉ names →
      classDictFind k names off = none := by
  intro names
  induction names with
  | nil => intro off _; rfl
  | cons n rest ih =>
    intro off hk
    have hn : n ≠ k := fun he => hk (he ▸ List.mem_cons_self n rest)
    have hr : k ∉ rest := fun hm => hk (List.mem_cons_of_mem n hm)
    unfold classDictFind
    rw [ih (off + 1) hr, if_neg hn]

lemma classDictFind_get (names : List String) (hnd : names.Nodup) :
    ∀ (i off : Nat) (h : i < names.length),
      classDictFind (names.get ⟨i, h⟩) names off = some (off + i) := by
  induction names with
  | nil => intro i off h; exact absurd h (by simp)
  | cons a rest ih =>
    intro i off h
    obtain ⟨ha, hnd2⟩ := List.nodup_cons.mp hnd
    cases i with
    | zero =>
      show classDictFind a (a :: rest) off = some (off + 0)
      unfold classDictFind
      rw [classDictFind_not_mem a rest (off + 1) ha, if_pos rfl]
      simp
    | succ j =>
      have hj : j < rest.length := by simpa using h
      show classDictFind (rest.get ⟨j, hj⟩) (a :: rest) off = some (off + (j + 1))
      unfold classDictFind
      rw [ih hnd2 j (off + 1) hj]
      show some (off + 1 + j) = some (off + (j + 1))
      congr 1
      omega

lemma buildClassNames_cons (lines : List String) :
    buildClassNames lines =
      "BACKGROUND" :: (tokensOf lines).map (fun e => pyRemoveSpaces e) := by
  unfold buildClassNames
  rw [List.map_cons]
  congr 1

/-- C9 (amended): when the label file exists, the Class Dictionary is built by
concatenating the rstripped lines, splitting on commas, removing EVERY space
character from each token (interior spaces included, other characters
unchanged), prepending the background class, and assigning ids by position:
provided the resulting names are pairwise distinct, `BACKGROUND` maps to id 0
and the `i`-th label-file token (after space removal) maps to id `i + 1`. -/
theorem claim_C9_amended (lines : List String)
    (hnd : (buildClassNames lines).Nodup) :
    buildClassNames lines =
      "BACKGROUND" :: (tokensOf lines).map (fun e => pyRemoveSpaces e) ∧
    classDictLookup (buildClassNames lines) "BACKGROUND" = some 0 ∧
    ∀ (i : Nat) (hi : i < (tokensOf lines).length),
      classDictLookup (buildClassNames lines)
        (pyRemoveSpaces ((tokensOf lines).get ⟨i, hi⟩)) = some (i + 1) := by
  have hcons := buildClassNames_cons lines
  have hbg : pyRemoveSpaces "BACKGROUND" = "BACKGROUND" := by decide
  refine ⟨hcons, ?_, fun i hi => ?_⟩
  · have h0 : 0 < (buildClassNames lines).length := by
      rw [hcons]; simp
    have hget : (buildClassNames lines).get ⟨0, h0⟩ = "BACKGROUND" := by
      simp [hcons]
    have := classDictFind_get (buildClassNames lines) hnd 0 0 h0
    rw [hget] at this
    exact this
  · have hlen : i + 1 < (buildClassNames lines).length := by
      rw [hcons]; simp; omega
    have hget : (buildClassNames lines).get ⟨i + 1, hlen⟩ =
        pyRemoveSpaces ((tokensOf lines).get ⟨i, hi⟩) := by
      simp [hcons]
    have := classDictFind_get (buildClassNames lines) hnd (i + 1) 0 hlen
    rw [hget] at this
    simpa using this

/-- Witness for C9: for the label file line `cat,dog` the names are distinct,
background maps to 0 and the first token maps to 1. -/
theorem claim_C9_witness :
    classDictLookup (buildClassNames ["cat,dog"]) "BACKGROUND" = some 0 ∧
    classDictLookup (buildClassNames ["cat,dog"])
      (pyRemoveSpaces ((tokensOf ["cat,dog"]).get ⟨0, by decide⟩)) = some 1 :=
  ⟨(claim_C9_amended ["cat,dog"] (by decide)).2.1,
   (claim_C9_amended ["cat,dog"] (by decide)).2.2 0 (by decide)⟩

lemma parseObjects_ok_char (names : List String) :
    ∀ (objs : List XmlObject) (b : List (List ℚ)) (l : List Nat) (d : List Int),
      parseObjects names objs = .ok (b, l, d) →
      b = (objs.filter (fun o => recog names o)).map
            (fun o => [o.xmin - 1, o.ymin - 1, o.xmax - 1, o.ymax - 1]) ∧
      l = (objs.filter (fun o => recog names o)).map
            (fun o => (classDictLookup names (pyStrip (pyLower o.name))).getD 0) ∧
      d = (objs.filter (fun o => recog names o)).map
            (fun o => (parseDifficult o.difficult).toOption.getD 0) := by
  intro objs
  induction objs with
  | nil =>
    intro b l d h
    simp only [parseObjects] at h
    obtain ⟨hb, hl, hd⟩ := by simpa using h
    simp [← hb, ← hl, ← hd]
  | cons o rest ih =>
    intro b l d h
    cases hc : classDictLookup names (pyStrip (pyLower o.name)) with
    | none =>
      have hrec : recog names o = false := by simp [recog, hc]
      simp only [parseObjects, hc] at h
      simpa [List.filter_cons, hrec] using ih b l d h
    | some k =>
      have hrec : recog names o = true := by simp [recog, hc]
      cases hdv : parseDifficult o.difficult with
      | error e => simp [parseObjects, hc, hdv] at h
      | ok dv =>
        cases hr : parseObjects names rest with
        | error e => simp [parseObjects, hc, hdv, hr] at h
        | ok trip =>
          obtain ⟨bs, ls, ds⟩ := trip
          have h2 : [o.xmin - 1, o.ymin - 1, o.xmax - 1, o.ymax - 1] :: bs = b ∧
              k :: ls = l ∧ dv :: ds = d := by
            simpa [parseObjects, hc, hdv, hr] using h
          obtain ⟨hb, hl, hd⟩ := h2
          obtain ⟨ihb, ihl, ihd⟩ := ih bs ls ds hr
          subst hb hl hd
          rw [List.filter_cons]
          simp only [hrec, eq_self_iff_true, if_true, reduceIte, List.map_cons]
          exact ⟨by rw [← ihb], by rw [← ihl, hc]; rfl, by rw [← ihd, hdv]; rfl⟩

lemma parseObjects_filter (names : List String) :
    ∀ objs : List XmlObject,
      parseObjects names objs =
        parseObjects names (objs.filter (fun o => recog names o)) := by
  intro objs
  induction objs with
  | nil => rfl
  | cons o rest ih =>
    cases hc : classDictLookup names (pyStrip (pyLower o.name)) with
    | none =>
      have hrec : recog names o = false := by simp [recog, hc]
      rw [List.filter_cons]
      simp only [hrec, Bool.false_eq_true, if_false, reduceIte]
      simp only [parseObjects, hc]
      exact ih
    | some k =>
      have hrec : recog names o = true := by simp [recog, hc]
      rw [List.filter_cons]
      simp only [hrec, if_true, reduceIte]
      simp only [parseObjects, hc, ← ih]

/-- C6: every detection kept by `_get_annotation` contributes the box row
`[xmin - 1, ymin - 1, xmax - 1, ymax - 1]` — each of the four coordinates is
the numeric value of the corresponding XML field minus 1, appended in
(x1, y1, x2, y2) order. -/
theorem claim_C6_coords (names : List String) (objs : List XmlObject)
    (b : List (List ℚ)) (l : List Nat) (d : List Int)
    (h : parseObjects names objs = .ok (b, l, d)) :
    b = (objs.filter (fun o => recog names o)).map
          (fun o => [o.xmin - 1, o.ymin - 1, o.xmax - 1, o.ymax - 1]) :=
  (parseObjects_ok_char names objs b l d h).1

/-- Witness for C6: a concrete annotation whose single object has xmin = 1,
whose returned x1 is 0. -/
theorem claim_C6_witness :
    ([[0, 1, 9, 19]] : List (List ℚ)) =
      ([⟨"cat", 1, 2, 10, 20, some (some "0")⟩].filter
          (fun o => recog ["BACKGROUND", "cat"] o)).map
        (fun o => [o.xmin - 1, o.ymin - 1, o.xmax - 1, o.ymax - 1]) :=
  claim_C6_coords ["BACKGROUND", "cat"]
    [⟨"cat", 1, 2, 10, 20, some (some "0")⟩] [[0, 1, 9, 19]] [1] [0] (by decide)

/-- C7: annotation parsing skips, with no error and no contribution, every
object whose case-folded trimmed class name is not a dictionary key — parsing
a list of objects equals parsing its recognized sublist — and for an
annotation with exactly one unrecognized and one recognized object it returns
exactly the one recognized detection. -/
theorem claim_C7_skip (names : List String) (objs : List XmlObject)
    (o1 o2 : XmlObject) (k : Nat) (dv : Int)
    (h1 : recog names o1 = false)
    (h2 : classDictLookup names (pyStrip (pyLower o2.name)) = some k)
    (hd : parseDifficult o2.difficult = .ok dv) :
    parseObjects names objs =
      parseObjects names (objs.filter (fun o => recog names o)) ∧
    parseObjects names [o1, o2] =
      .ok ([[o2.xmin - 1, o2.ymin - 1, o2.xmax - 1, o2.ymax - 1]], [k], [dv]) := by
  refine ⟨parseObjects_filter names objs, ?_⟩
  have h1n : classDictLookup names (pyStrip (pyLower o1.name)) = none := by
    cases hx : classDictLookup names (pyStrip (pyLower o1.name)) with
    | none => rfl
    | some j => simp [recog, hx] at h1
  simp [parseObjects, h1n, h2, hd]

/-- Witness for C7: concrete two-object annotation (one `zebra`, one `cat`
against the dictionary {BACKGROUND, cat}) yielding exactly the one `cat`
detection. -/
theorem claim_C7_witness :
    parseObjects ["BACKGROUND", "cat"]
        [⟨"zebra", 1, 1, 2, 2, some (some "0")⟩,
         ⟨"cat", 3, 4, 5, 6, some (some "0")⟩] = .ok ([[2, 3, 4, 5]], [1], [0]) ∧
    parseObjects ["BACKGROUND", "cat"] ([] : List XmlObject) =
      parseObjects ["BACKGROUND", "cat"]
        (([] : List XmlObject).filter (fun o => recog ["BACKGROUND", "cat"] o)) :=
  ⟨(claim_C7_skip ["BACKGROUND", "cat"] []
      ⟨"zebra", 1, 1, 2, 2, some (some "0")⟩
      ⟨"cat", 3, 4, 5, 6, some (some "0")⟩ 1 0
      (by decide) (by decide) (by decide)).2,
   (claim_C7_skip ["BACKGROUND", "cat"] []
      ⟨"zebra", 1, 1, 2, 2, some (some "0")⟩
      ⟨"cat", 3, 4, 5, 6, some (some "0")⟩ 1 0
      (by decide) (by decide) (by decide)).1⟩

lemma drawEnd_eq_min {Img : Type} (st : RecordState Img) (idx : Nat) :
    drawEnd st idx = min ((idx + 1) * st.batch_size) (st.ids.length - 1) := by
  unfold drawEnd
  split <;> omega

lemma processSample_error {Img : Type} (st : RecordState Img) (i : Nat)
    (e : PyError) (h : processSample st i = .error e) :
    getAnnotation st (st.ids.getD i "") = .error e := by
  unfold processSample at h
  cases hg : getAnnotation st (st.ids.getD i "") <;> rw [hg] at h
  · cases h
    rfl
  · rename_i trip
    obtain ⟨b0, l0, d0⟩ := trip
    cases h

lemma getitemLoop_exhaust {Img : Type} (st : RecordState Img) :
    ∀ (l : List Nat) (inputs : List Img) (t1 : List (List (List ℚ)))
      (t2 : List (List Nat)),
      (∀ i ∈ l, annOk st i = true) →
      t1.length + l.length < st.batch_size →
      getitemLoop st l inputs t1 t2 = .ok none := by
  intro l
  induction l with
  | nil => intro inputs t1 t2 _ _; rfl
  | cons i rest ih =>
    intro inputs t1 t2 hwf hlen
    have hai : annOk st i = true := hwf i (List.mem_cons_self i rest)
    cases hp : processSample st i with
    | error e =>
      unfold annOk at hai
      rw [processSample_error st i e hp] at hai
      cases hai
    | ok trip =>
      obtain ⟨im, bx, lb⟩ := trip
      simp only [getitemLoop, hp]
      rw [List.length_cons] at hlen
      have hne : ¬((t1 ++ [bx]).length = st.batch_size) := by
        simp only [List.length_append, List.length_cons, List.length_nil]
        omega
      rw [if_neg hne]
      exact ih _ _ _ (fun j hj => hwf j (List.mem_cons_of_mem i hj))
        (by simp only [List.length_append, List.length_cons, List.length_nil]
            omega)

/-- C3: batch `idx` draws its sample indices exactly from the range
`[idx * batch_size, min ((idx + 1) * batch_size) (N - 1))` where `N` is the
sample count, and whenever that range holds fewer than `batch_size` indices
(the final partial batch) the call returns no batch at all (for any
permutation the shuffle produces and any input whose drawn annotations
parse). -/
theorem claim_C3_range {Img : Type} (st : RecordState Img) (idx : Nat) :
    (∀ n, n ∈ drawnIdxs st idx ↔
      idx * st.batch_size ≤ n ∧
        n < min ((idx + 1) * st.batch_size) (st.ids.length - 1)) ∧
    (∀ shuffle : List Nat → List Nat,
      (shuffle (drawnIdxs st idx)).Perm (drawnIdxs st idx) →
      (∀ i ∈ drawnIdxs st idx, annOk st i = true) →
      (drawnIdxs st idx).length < st.batch_size →
      getitem st idx shuffle = .ok none) := by
  constructor
  · intro n
    unfold drawnIdxs
    rw [List.mem_range'_1, drawEnd_eq_min]
    omega
  · intro shuffle hperm hwf hlen
    have hloop : getitemLoop st (shuffle (drawnIdxs st idx)) [] [] [] = .ok none := by
      apply getitemLoop_exhaust
      · intro i hi
        exact hwf i (hperm.mem_iff.mp hi)
      · rw [List.length_nil, Nat.zero_add, hperm.length_eq]
        exact hlen
    simp [getitem, hloop]

/-- A concrete instance state used by the witnesses: two sample ids, batch
size 1, `keep_difficult` false, no transforms, and an annotation file with one
easy and one difficult `cat` object. -/
def stW : RecordState Nat where
  root := "r"
  ids := ["a", "b"]
  batch_size := 1
  keep_difficult := false
  classNames := ["BACKGROUND", "cat"]
  transform := none
  targetTransform := none
  numRecords := none
  annotationXml := fun _ =>
    [⟨"cat", 1, 2, 3, 4, some (some "0")⟩, ⟨"cat", 5, 6, 7, 8, some (some "1")⟩]
  imageOf := fun _ => 0

/-- Witness for C3: with two samples and batch size 1, batch 1 draws from the
empty clamped range and returns no batch; the range characterization at a
concrete index. -/
theorem claim_C3_witness :
    (0 ∈ drawnIdxs stW 0 ↔
      0 * stW.batch_size ≤ 0 ∧
        0 < min ((0 + 1) * stW.batch_size) (stW.ids.length - 1)) ∧
    getitem stW 1 (fun l => l) = .ok none :=
  ⟨(claim_C3_range stW 0).1 0,
   (claim_C3_range stW 1).2 (fun l => l) (List.Perm.refl _)
     (by decide) (by decide)⟩

lemma zipAppend_entry (a : List (List ℚ)) (b : List ℚ) :
    ∀ (j : Nat), j < ((a.zip b).map (fun q => q.1 ++ [q.2])).length →
      (((a.zip b).map (fun q => q.1 ++ [q.2])).getD j []).length =
        (a.getD j []).length + 1 := by
  induction a generalizing b with
  | nil => intro j hj; simp at hj
  | cons x a2 ih =>
    intro j hj
    cases b with
    | nil => simp at hj
    | cons y b2 =>
      cases j with
      | zero => simp
      | succ j2 =>
        simp only [List.zip_cons_cons, List.map_cons, List.getD_cons_succ]
        apply ih
        simpa using hj

lemma combineTargets_cons (a : List (List ℚ)) (b : List ℚ)
    (t1 : List (List (List ℚ))) (t2 : List (List ℚ)) :
    combineTargets (a :: t1) (b :: t2) =
      ((a.zip b).map (fun q => q.1 ++ [q.2])) :: combineTargets t1 t2 := rfl

lemma combineTargets_entry (t1 : List (List (List ℚ))) (t2 : List (List ℚ)) :
    ∀ (i j : Nat), i < (combineTargets t1 t2).length →
      j < ((combineTargets t1 t2).getD i []).length →
      (((combineTargets t1 t2).getD i []).getD j []).length =
        ((t1.getD i []).getD j []).length + 1 := by
  induction t1 generalizing t2 with
  | nil => intro i j hi _; simp [combineTargets] at hi
  | cons a t1b ih =>
    intro i j hi hj
    cases t2 with
    | nil => simp [combineTargets] at hi
    | cons b t2b =>
      cases i with
      | zero =>
        simp only [combineTargets_cons, List.getD_cons_zero] at hj ⊢
        exact zipAppend_entry a b j hj
      | succ i2 =>
        simp only [combineTargets_cons, List.getD_cons_succ,
          List.length_cons] at hi hj ⊢
        exact ih t2b i2 j (by omega) hj

/-- C4: every full batch returned by `__getitem__` carries the combined target
built by appending the trailing-singleton-expanded labels to the boxes along
the trailing axis (`combineTargets` of the two accumulated stacks), so every
per-detection row of the combined target is exactly one entry longer than the
corresponding boxes row. -/
theorem claim_C4_shape {Img : Type} (st : RecordState Img) (idx : Nat)
    (shuffle : List Nat → List Nat) (inp : List Img)
    (tgt : List (List (List ℚ)))
    (h : getitem st idx shuffle = .ok (some (inp, tgt))) :
    ∃ t1 t2, getitemLoop st (shuffle (drawnIdxs st idx)) [] [] [] =
        .ok (some (inp, t1, t2)) ∧
      tgt = combineTargets t1 (t2.map (fun r => r.map (fun n : Nat => (n : ℚ)))) ∧
      ∀ i j, i < tgt.length → j < (tgt.getD i []).length →
        ((tgt.getD i []).getD j []).length =
          ((t1.getD i []).getD j []).length + 1 := by
  unfold getitem at h
  cases hl : getitemLoop st (shuffle (drawnIdxs st idx)) [] [] [] <;> rw [hl] at h
  case error e => cases h
  case ok o =>
    cases o with
    | none => cases h
    | some trip =>
      obtain ⟨inputs, t1, t2⟩ := trip
      have h2 : inputs = inp ∧
          combineTargets t1 (t2.map (fun r => r.map (fun n : Nat => (n : ℚ)))) = tgt := by
        simpa using h
      obtain ⟨hinp, ht⟩ := h2
      subst hinp
      refine ⟨t1, t2, rfl, ht.symm, ?_⟩
      intro i j hgi hgj
      rw [← ht] at hgi hgj ⊢
      exact combineTargets_entry t1 _ i j hgi hgj

/-- Witness for C4: the concrete full batch of `stW` at index 0, whose single
combined row [0, 1, 2, 3, 1] is the box row [0, 1, 2, 3] plus one label
slot. -/
theorem claim_C4_witness :
    ∃ t1 t2, getitemLoop stW ((fun l => l) (drawnIdxs stW 0)) [] [] [] =
        .ok (some (([0] : List Nat), t1, t2)) ∧
      ([[[0, 1, 2, 3, 1]]] : List (List (List ℚ))) =
        combineTargets t1 (t2.map (fun r => r.map (fun n : Nat => (n : ℚ)))) ∧
      ∀ i j, i < ([[[0, 1, 2, 3, 1]]] : List (List (List ℚ))).length →
        j < (([[[0, 1, 2, 3, 1]]] : List (List (List ℚ))).getD i []).length →
        ((([[[0, 1, 2, 3, 1]]] : List (List (List ℚ))).getD i []).getD j []).length =
          ((t1.getD i []).getD j []).length + 1 :=
  claim_C4_shape stW 0 (fun l => l) [0] [[[0, 1, 2, 3, 1]]] (by decide)

lemma maskKeep_cons {α : Type} (x : α) (xs : List α) (m : Nat) (ms : List Nat) :
    maskKeep (x :: xs) (m :: ms) =
      if m == 0 then x :: maskKeep xs ms else maskKeep xs ms := by
  unfold maskKeep
  rw [List.zip_cons_cons, List.filter_cons]
  dsimp only
  by_cases hm : (m == 0) = true
  · rw [if_pos hm, if_pos hm, List.map_cons]
  · rw [if_neg hm, if_neg hm]

lemma maskKeep_render :
    ∀ (b : List (List ℚ)) (l : List Nat) (d : List Nat), b.length = l.length →
      ((maskKeep b d).zip ((maskKeep l d).map (fun n : Nat => (n : ℚ)))).map
          (fun q => q.1 ++ [q.2]) =
        ((b.zip (l.zip d)).filter (fun t => t.2.2 == 0)).map
          (fun t => t.1 ++ [(t.2.1 : ℚ)]) := by
  intro b
  induction b with
  | nil => intro l d _; rfl
  | cons x b2 ih =>
    intro l d h
    cases l with
    | nil => simp at h
    | cons y l2 =>
      cases d with
      | nil => rfl
      | cons m d2 =>
        have h2 : b2.length = l2.length := by simpa using h
        rw [maskKeep_cons, maskKeep_cons, List.zip_cons_cons, List.zip_cons_cons,
          List.filter_cons]
        dsimp only
        by_cases hm : (m == 0) = true
        · rw [if_pos hm, if_pos hm, if_pos hm, List.map_cons, List.zip_cons_cons,
            List.map_cons, List.map_cons, ih l2 d2 h2]
        · rw [if_neg hm, if_neg hm, if_neg hm]
          exact ih l2 d2 h2

lemma getAnnotation_ok_len {Img : Type} (st : RecordState Img)
    (image_id : String) (b : List (List ℚ)) (l : List Nat) (d : List Nat)
    (h : getAnnotation st image_id = .ok (b, l, d)) : b.length = l.length := by
  unfold getAnnotation at h
  cases hp : parseObjects st.classNames (st.annotationXml image_id) <;>
    rw [hp] at h
  · cases h
  · rename_i trip
    obtain ⟨b0, l0, d0⟩ := trip
    have h2 : b0 = b ∧ l0 = l ∧ d0.map (fun z => (z % 256).toNat) = d := by
      simpa using h
    obtain ⟨hb, hl, _⟩ := h2
    obtain ⟨cb, cl, _⟩ := parseObjects_ok_char st.classNames _ b0 l0 d0 hp
    subst hb hl
    rw [cb, cl]
    simp

lemma rowPair_clean {Img : Type} (st : RecordState Img) (i : Nat) :
    ((rowBoxes st i).zip ((rowLabels st i).map (fun n : Nat => (n : ℚ)))).map
        (fun q => q.1 ++ [q.2]) =
      cleanDets st (st.ids.getD i "") := by
  cases hg : getAnnotation st (st.ids.getD i "") with
  | error e =>
    simp only [rowBoxes, rowLabels, cleanDets, keptTriples, hg]
    rfl
  | ok trip =>
    obtain ⟨b, l, d⟩ := trip
    have hlen : b.length = l.length := getAnnotation_ok_len st _ b l d hg
    simp only [rowBoxes, rowLabels, cleanDets, keptTriples, hg]
    exact maskKeep_render b l d hlen

lemma getitemLoop_clean {Img : Type} (st : RecordState Img)
    (hkd : st.keep_difficult = false) (htf : st.transform = none)
    (httf : st.targetTransform = none) :
    ∀ (l : List Nat) (inputs : List Img) (t1 : List (List (List ℚ)))
      (t2 : List (List Nat)) (inp : List Img) (r1 : List (List (List ℚ)))
      (r2 : List (List Nat)),
      getitemLoop st l inputs t1 t2 = .ok (some (inp, r1, r2)) →
      ∃ pre suf, l = pre ++ suf ∧
        r1 = t1 ++ pre.map (fun i => rowBoxes st i) ∧
        r2 = t2 ++ pre.map (fun i => rowLabels st i) := by
  intro l
  induction l with
  | nil => intro inputs t1 t2 inp r1 r2 h; simp [getitemLoop] at h
  | cons i rest ih =>
    intro inputs t1 t2 inp r1 r2 h
    cases hg : getAnnotation st (st.ids.getD i "") with
    | error e =>
      have hp : processSample st i = .error e := by
        simp only [processSample, hg]
      simp [getitemLoop, hp] at h
    | ok trip =>
      obtain ⟨b0, l0, d0⟩ := trip
      have hp : processSample st i =
          .ok (st.imageOf (st.ids.getD i ""), maskKeep b0 d0, maskKeep l0 d0) := by
        simp only [processSample, hg, hkd, htf, httf, Bool.false_eq_true,
          if_false, reduceIte]
      have hrb : rowBoxes st i = maskKeep b0 d0 := by
        simp only [rowBoxes, hg]
      have hrl : rowLabels st i = maskKeep l0 d0 := by
        simp only [rowLabels, hg]
      simp only [getitemLoop, hp] at h
      by_cases hb : (t1 ++ [maskKeep b0 d0]).length = st.batch_size
      · rw [if_pos hb] at h
        have h2 : inputs ++ [st.imageOf (st.ids.getD i "")] = inp ∧
            t1 ++ [maskKeep b0 d0] = r1 ∧ t2 ++ [maskKeep l0 d0] = r2 := by
          simpa using h
        obtain ⟨_, h3, h4⟩ := h2
        refine ⟨[i], rest, rfl, ?_, ?_⟩
        · rw [← h3, List.map_cons, List.map_nil, hrb]
        · rw [← h4, List.map_cons, List.map_nil, hrl]
      · rw [if_neg hb] at h
        obtain ⟨pre2, suf2, hl2, hr1, hr2⟩ := ih _ _ _ _ _ _ h
        refine ⟨i :: pre2, suf2, by rw [hl2]; rfl, ?_, ?_⟩
        · rw [hr1, List.map_cons, hrb]
          simp [List.append_assoc]
        · rw [hr2, List.map_cons, hrl]
          simp [List.append_assoc]

/-- C5: with `keep_difficult` false (and no transforms configured), every full
batch's combined targets are exactly the renderings of the samples' triples
that survive the `is_difficult == 0` mask — the mask is applied identically to
boxes and labels via the shared zip — and no surviving triple has difficulty
flag 1, so no difficulty-1 detection appears in any returned batch target. -/
theorem claim_C5_difficulty {Img : Type} (st : RecordState Img) (idx : Nat)
    (shuffle : List Nat → List Nat) (inp : List Img)
    (tgt : List (List (List ℚ)))
    (hkd : st.keep_difficult = false) (htf : st.transform = none)
    (httf : st.targetTransform = none)
    (h : getitem st idx shuffle = .ok (some (inp, tgt))) :
    (∃ pre suf, shuffle (drawnIdxs st idx) = pre ++ suf ∧
       tgt = pre.map (fun i => cleanDets st (st.ids.getD i ""))) ∧
    (∀ (image_id : String) (t : List ℚ × Nat × Nat),
       t ∈ keptTriples st image_id → t.2.2 ≠ 1) := by
  constructor
  · unfold getitem at h
    cases hl : getitemLoop st (shuffle (drawnIdxs st idx)) [] [] [] <;>
      rw [hl] at h
    case error e => cases h
    case ok o =>
      cases o with
      | none => cases h
      | some trip =>
        obtain ⟨inputs, t1, t2⟩ := trip
        have h2 : inputs = inp ∧
            combineTargets t1 (t2.map (fun r => r.map (fun n : Nat => (n : ℚ)))) = tgt := by
          simpa using h
        obtain ⟨_, ht⟩ := h2
        obtain ⟨pre, suf, hsplit, hr1, hr2⟩ :=
          getitemLoop_clean st hkd htf httf _ _ _ _ _ _ _ hl
        refine ⟨pre, suf, hsplit, ?_⟩
        rw [← ht, hr1, hr2]
        simp only [List.nil_append, combineTargets, List.map_map, List.zip_map']
        apply List.map_congr_left
        intro a _
        exact rowPair_clean st a
  · intro image_id t ht
    unfold keptTriples at ht
    cases hg : getAnnotation st image_id <;> rw [hg] at ht
    · simp at ht
    · rename_i trip
      obtain ⟨b, l, d⟩ := trip
      simp only at ht
      have h0 := List.of_mem_filter ht
      simp at h0
      omega

/-- Witness for C5: the concrete batch of `stW` at index 0 — the difficult
`cat` (flag 1) was dropped, leaving only the easy detection [0, 1, 2, 3, 1]. -/
theorem claim_C5_witness :
    (∃ pre suf, (fun l => l) (drawnIdxs stW 0) = pre ++ suf ∧
       ([[[0, 1, 2, 3, 1]]] : List (List (List ℚ))) =
         pre.map (fun i => cleanDets stW (stW.ids.getD i ""))) ∧
    (∀ (image_id : String) (t : List ℚ × Nat × Nat),
       t ∈ keptTriples stW image_id → t.2.2 ≠ 1) :=
  claim_C5_difficulty stW 0 (fun l => l) [0] [[[0, 1, 2, 3, 1]]]
    rfl rfl rfl (by decide)
